import Mathlib

set_option maxHeartbeats 1000000

/-!
Shallow embedding of the gamik repository's replication core: the world
store and value types (`src/game/mod.rs`), the pure action applier, the
legacy duplicates in `src/structs.rs` and `src/network.rs`, the
per-player snapshot filter of `src/net.rs`, and a model of the persisted
serialization.  Machine integers (`i32`, `u32`) are embedded as `Int` /
`Nat` with explicit wrapping (`% 2^32`) or clamping where the Rust
operation wraps or saturates.
-/

namespace Gamik

/-- Least value of a Rust `i32`. -/
def i32Min : Int := -(2 ^ 31)

/-- Greatest value of a Rust `i32`. -/
def i32Max : Int := 2 ^ 31 - 1

/-- Wrap an exact integer into the `i32` range, as Rust release-mode
overflow does (two's complement). -/
def wrap32 (z : Int) : Int := (z + 2 ^ 31) % 2 ^ 32 - 2 ^ 31

/-- Rust `i32::saturating_add`: the exact sum clamped into
`[i32Min, i32Max]`. -/
def satAdd32 (a b : Int) : Int := max i32Min (min i32Max (a + b))

/-- Rust `i32::saturating_sub`: the exact difference clamped into
`[i32Min, i32Max]`. -/
def satSub32 (a b : Int) : Int := max i32Min (min i32Max (a - b))

/-- Rust `i32::abs` under release-mode overflow semantics: `abs` of
`i32::MIN` wraps back to `i32::MIN`. -/
def abs32 (z : Int) : Int := wrap32 |z|

/-- Unique identifier for an entity (Rust `struct EntityID(pub u32)` in
`src/game/mod.rs`); the `u32` payload is embedded as a `Nat`. -/
abbrev EntityID := Nat

/-- Counter state of the monotonic id generator (Rust
`struct EntityGenerator(u32)`). -/
abbrev EntityGenerator := Nat

/-- Rust `EntityGenerator::next` (`src/game/mod.rs`): `self.0 += 1;
EntityID(self.0)`.  The `u32` increment wraps modulo `2^32` in release
mode (and would panic in debug mode at `u32::MAX`); the wrap is explicit
here.  Returns the new counter state together with the issued id. -/
def entityGenNext (g : EntityGenerator) : EntityGenerator × EntityID :=
  ((g + 1) % 2 ^ 32, (g + 1) % 2 ^ 32)

/-- Counter state of a fresh generator after `n` calls to
`entityGenNext`, starting from `EntityGenerator::default()` = 0.  Since
`next` returns the new counter, this is also the id issued by the
`n`-th call (for `n ≥ 1`). -/
def genStateAfter : Nat → Nat
  | 0 => 0
  | n + 1 => ((genStateAfter n) + 1) % 2 ^ 32

/-- A 2-D point on the game grid (Rust `struct Point { x: i32, y: i32 }`). -/
structure Point where
  x : Int
  y : Int
deriving DecidableEq, Repr

/-- Cardinal direction for movement. -/
inductive Direction where
  | Up
  | Down
  | Left
  | Right
deriving DecidableEq, Repr

/-- Rust `Direction::delta`: the `(dx, dy)` offset of one step. -/
def Direction.delta : Direction → Int × Int
  | .Up => (0, -1)
  | .Down => (0, 1)
  | .Left => (-1, 0)
  | .Right => (1, 0)

/-- The kind of entity. -/
inductive EntityType where
  | Player
  | Tree
deriving DecidableEq, Repr

/-- Rust `EntityType::blocks_sight`: only trees occlude. -/
def EntityType.blocks_sight : EntityType → Bool
  | .Player => false
  | .Tree => true

/-- Rust `String` values (entity names, world names) are embedded as
their byte sequences. -/
abbrev RStr := List Nat

/-- An entity in the game world (Rust `struct Entity`). -/
structure Entity where
  position : Point
  name : Option RStr
  entity_type : EntityType
deriving DecidableEq, Repr

/-- Rust `EntityMap = FxHashMap<EntityID, Entity>`, embedded as an
association list: `findEntity` models `get`, `insertEntity` models
`insert` (replacing the entry when the key is present), `updateEntity`
models `get_mut` followed by a field update.  Map equality in Rust is
key-value-set equality; the list is a concrete representative. -/
abbrev EntityMap := List (EntityID × Entity)

/-- Lookup in the entity map (Rust `HashMap::get`). -/
def findEntity (m : EntityMap) (id : EntityID) : Option Entity :=
  match m with
  | [] => none
  | (k, e) :: rest => if k = id then some e else findEntity rest id

/-- Insert-or-replace in the entity map (Rust `HashMap::insert`). -/
def insertEntity (m : EntityMap) (id : EntityID) (e : Entity) : EntityMap :=
  match m with
  | [] => [(id, e)]
  | (k, v) :: rest =>
    if k = id then (id, e) :: rest else (k, v) :: insertEntity rest id e

/-- In-place update of the entry with the given key, identity when the
key is absent (Rust `HashMap::get_mut` followed by mutation). -/
def updateEntity (m : EntityMap) (id : EntityID) (f : Entity → Entity) : EntityMap :=
  match m with
  | [] => []
  | (k, e) :: rest =>
    if k = id then (k, f e) :: updateEntity rest id f
    else (k, e) :: updateEntity rest id f

/-- Number of entries carrying the given key. -/
def countKey (m : EntityMap) (id : EntityID) : Nat :=
  match m with
  | [] => 0
  | (k, _) :: rest => (if k = id then 1 else 0) + countKey rest id

/-- Well-formedness of the association-list representative of a hash
map: keys are pairwise distinct (always true of a Rust `HashMap`). -/
def wfKeys (m : EntityMap) : Prop :=
  (m.map Prod.fst).Nodup

instance (m : EntityMap) : Decidable (wfKeys m) := by
  unfold wfKeys
  infer_instance

/-- Every possible state-mutating action (Rust `enum GameAction` in
`src/game/mod.rs`). -/
inductive GameAction where
  | Move (direction : Direction)
  | SpawnPlayer (name : RStr)
  | SpawnAs (id : EntityID)
  | SaveWorld
deriving DecidableEq, Repr

/-- Events emitted by `apply` (Rust `enum GameEvent`). -/
inductive GameEvent where
  | EntityMoved (entity_id : EntityID)
  | PlayerSpawned (entity_id : EntityID)
  | SpawnAsRequested (entity_id : EntityID)
  | SaveRequested
deriving DecidableEq, Repr

/-- Pure game state (Rust `struct GameState` in `src/game/mod.rs`). -/
structure GameState where
  entity_gen : EntityGenerator
  entities : EntityMap
  world_name : RStr
deriving DecidableEq, Repr

/-- Saturating position shift by one step (body of `move_entity` in
`src/game/mod.rs`: both coordinates use `i32::saturating_add`). -/
def movePoint (p : Point) (d : Direction) : Point :=
  ⟨satAdd32 p.x d.delta.1, satAdd32 p.y d.delta.2⟩

/-- Rust `move_entity` (`src/game/mod.rs`): if the entity exists, shift
its position by the direction's delta with saturating adds; otherwise do
nothing. -/
def move_entity (s : GameState) (entity_id : EntityID) (d : Direction) : GameState :=
  { s with
    entities :=
      updateEntity s.entities entity_id fun e => { e with position := movePoint e.position d } }

/-- Rust `spawn_player` (`src/game/mod.rs`): allocate the next id and
insert a `Player` entity named `name` at the fixed spawn point
`(10, 10)`.  Returns the new state together with the new id. -/
def spawn_player (s : GameState) (name : RStr) : GameState × EntityID :=
  let g := entityGenNext s.entity_gen
  ({ entity_gen := g.1
     entities := insertEntity s.entities g.2 ⟨⟨10, 10⟩, some name, .Player⟩
     world_name := s.world_name }, g.2)

/-- Rust `apply` (`src/game/mod.rs`): apply a single action to the game
state, returning the mutated state and the emitted events. -/
def apply (s : GameState) (entity_id : EntityID) (action : GameAction) :
    GameState × List GameEvent :=
  match action with
  | .Move d => (move_entity s entity_id d, [.EntityMoved entity_id])
  | .SpawnPlayer name =>
    let r := spawn_player s name
    (r.1, [.PlayerSpawned r.2])
  | .SpawnAs eid => (s, [.SpawnAsRequested eid])
  | .SaveWorld => (s, [.SaveRequested])

/-- Replay of a whole action sequence through `apply` (the replay loop
the spec's determinism property quantifies over). -/
def applyAll (s : GameState) (l : List (EntityID × GameAction)) : GameState :=
  l.foldl (fun st p => (apply st p.1 p.2).1) s

/-- Position shift of the legacy `GameWorld::move_entity`
(`src/structs.rs`, lines 215-239): `Up` and `Left` use
`i32::saturating_sub(1)`, but `Down` and `Right` use plain `+ 1`, which
wraps in release mode (and panics in debug mode) at `i32::MAX`. -/
def gameWorldMovePoint (p : Point) (d : Direction) : Point :=
  match d with
  | .Up => ⟨p.x, satSub32 p.y 1⟩
  | .Down => ⟨p.x, wrap32 (p.y + 1)⟩
  | .Left => ⟨satSub32 p.x 1, p.y⟩
  | .Right => ⟨wrap32 (p.x + 1), p.y⟩

/-- Legacy `GameWorld::move_entity` (`src/structs.rs`) restricted to the
only field it touches, the entity map: if the entity exists, replace its
position by `gameWorldMovePoint`. -/
def gameWorldMoveEntity (m : EntityMap) (entity_id : EntityID) (d : Direction) : EntityMap :=
  updateEntity m entity_id fun e => { e with position := gameWorldMovePoint e.position d }

/-- Modelled from the spec: the `fov` module (`PlayerFov`,
`DEFAULT_FOV_RADIUS`, `FOV_NETWORK_MARGIN`) is imported by `src/net.rs`
but its source file is absent from the repository.  The spec describes
the margin as a fixed constant added to the strict FOV radius; its value
is not given, and any fixed nonnegative constant fits this model. -/
def FOV_NETWORK_MARGIN : Nat := 5

/-- Modelled from the spec: `PlayerFov` holds the strict FOV radius and
the current visible cell set (spec section 3, PlayerFOV).  The radius is
a nonnegative count of cells and the cell set is embedded as a list of
grid cells, matching the uses `pfov.fov_radius` and
`pfov.current_fov.contains(&(ex, ey))` in `src/net.rs`. -/
structure PlayerFov where
  fov_radius : Nat
  current_fov : List (Int × Int)
deriving DecidableEq, Repr

/-- Opaque connection identity (iroh `EndpointId`), embedded as a bare
number since only its equality is used. -/
abbrev EndpointId := Nat

/-- Server-to-client protocol message (Rust `enum ServerMessage` in
`src/net.rs`). -/
inductive ServerMessage where
  | EntityMap (m : Gamik.EntityMap)
  | PlayerID (id : EntityID)
deriving DecidableEq, Repr

/-- State owned by the server (Rust `struct ServerState` in
`src/net.rs`): the authoritative game state plus networking metadata. -/
structure ServerState where
  game : GameState
  endpoints : List (EndpointId × EntityID)
  unique_server_messages : List (EndpointId × List ServerMessage)
  event_queue : List (EntityID × GameAction)
  player_fovs : List (EntityID × PlayerFov)
deriving DecidableEq, Repr

/-- Association-list lookup for the per-player FOV table. -/
def findFov (m : List (EntityID × PlayerFov)) (id : EntityID) : Option PlayerFov :=
  match m with
  | [] => none
  | (k, v) :: rest => if k = id then some v else findFov rest id

/-- Membership of a grid cell in the visible cell set (Rust
`HashSet::contains` on `current_fov`). -/
def fovContains (s : List (Int × Int)) (c : Int × Int) : Bool :=
  match s with
  | [] => false
  | a :: rest => if a = c then true else fovContains rest c

/-- Rust `i32` subtraction under release-mode overflow semantics. -/
def i32sub (a b : Int) : Int := wrap32 (a - b)

/-- Rust `ServerState::entities_for_player` (`src/net.rs`, lines
165-190): with no FOV record, fall back to the whole entity map; with a
record but no player entity, the empty map; otherwise keep exactly the
entities whose position is in the strict FOV set or whose chessboard
distance from the player passes the margin check.  The source computes
the distance as `(ex - px).abs() <= radius` on `i32`, so both the
subtraction and `abs` are embedded with release-mode wrapping (a debug
build panics when the difference overflows). -/
def entities_for_player (st : ServerState) (pid : EntityID) : EntityMap :=
  match findFov st.player_fovs pid with
  | none => st.game.entities
  | some pfov =>
    match findEntity st.game.entities pid with
    | none => []
    | some player =>
      let radius : Int := (pfov.fov_radius : Int) + (FOV_NETWORK_MARGIN : Int)
      st.game.entities.filter fun kv =>
        fovContains pfov.current_fov (kv.2.position.x, kv.2.position.y) ||
        (decide (abs32 (i32sub kv.2.position.x player.position.x) ≤ radius) &&
         decide (abs32 (i32sub kv.2.position.y player.position.y) ≤ radius))

/-! Model of the serialized form.  The persisted world file and the wire
messages are produced by the external `bitcode` crate, which is not part
of this repository; the spec pins only its contract (a closed
tagged-union scheme, decode the exact inverse of encode).  The model
below is a concrete executable codec over a stream of `Nat` tokens:
every enum is tagged, every variable-length piece is length-prefixed,
and `i32` values are zigzag-mapped to `Nat`. -/

/-- Zigzag embedding of an integer into the naturals (bijective). -/
def zigzag (z : Int) : Nat := if 0 ≤ z then 2 * z.toNat else 2 * (-z).toNat - 1

/-- Inverse of `zigzag`. -/
def unzigzag (n : Nat) : Int := if n % 2 = 0 then ((n / 2 : Nat) : Int) else -(((n + 1) / 2 : Nat) : Int)

/-- Length-prefixed encoding of a byte string. -/
def encodeRStr (s : RStr) : List Nat := s.length :: s

/-- Decode a length-prefixed byte string, returning the remaining
tokens; fails when the prefix overruns the input. -/
def decodeRStr : List Nat → Option (RStr × List Nat)
  | [] => none
  | n :: rest =>
    if n ≤ rest.length then some (rest.take n, rest.drop n) else none

def encodePoint (p : Point) : List Nat := [zigzag p.x, zigzag p.y]

def decodePoint : List Nat → Option (Point × List Nat)
  | a :: b :: rest => some (⟨unzigzag a, unzigzag b⟩, rest)
  | _ => none

def encodeEntityType : EntityType → Nat
  | .Player => 0
  | .Tree => 1

def decodeEntityType (n : Nat) : Option EntityType :=
  if n = 0 then some .Player else if n = 1 then some .Tree else none

def encodeName : Option RStr → List Nat
  | none => [0]
  | some s => 1 :: encodeRStr s

def decodeName : List Nat → Option (Option RStr × List Nat)
  | 0 :: rest => some (none, rest)
  | 1 :: rest => (decodeRStr rest).map fun pr => (some pr.1, pr.2)
  | _ => none

def encodeEntity (e : Entity) : List Nat :=
  encodePoint e.position ++ encodeName e.name ++ [encodeEntityType e.entity_type]

def decodeEntity (l : List Nat) : Option (Entity × List Nat) :=
  match decodePoint l with
  | none => none
  | some (p, r1) =>
    match decodeName r1 with
    | none => none
    | some (nm, r2) =>
      match r2 with
      | [] => none
      | t :: r3 =>
        match decodeEntityType t with
        | none => none
        | some ty => some (⟨p, nm, ty⟩, r3)

/-- Length-prefixed encoding of the entity map, entries in list order. -/
def encodeEntityMap (m : EntityMap) : List Nat :=
  m.length :: (m.map fun kv => kv.1 :: encodeEntity kv.2).flatten

def decodeEntries : Nat → List Nat → Option (EntityMap × List Nat)
  | 0, l => some ([], l)
  | n + 1, l =>
    match l with
    | [] => none
    | k :: r1 =>
      match decodeEntity r1 with
      | none => none
      | some (e, r2) =>
        match decodeEntries n r2 with
        | none => none
        | some (m, r3) => some ((k, e) :: m, r3)

def decodeEntityMap (l : List Nat) : Option (EntityMap × List Nat) :=
  match l with
  | [] => none
  | n :: rest => decodeEntries n rest

/-- Serialized form of a game state, the data persisted by
`save_to_file` (`src/game/mod.rs`): id-generator counter, entity map and
world name. -/
def encodeGameState (s : GameState) : List Nat :=
  s.entity_gen :: (encodeEntityMap s.entities ++ encodeRStr s.world_name)

/-- Deserialization of a game state, the decode half used by
`load_from_file`; trailing tokens are rejected. -/
def decodeGameState (l : List Nat) : Option GameState :=
  match l with
  | [] => none
  | g :: rest =>
    match decodeEntityMap rest with
    | none => none
    | some (m, r1) =>
      match decodeRStr r1 with
      | some (w, []) => some ⟨g, m, w⟩
      | _ => none

/-- Top-level wire message (Rust `enum Message` in `src/net.rs`). -/
inductive Message where
  | Client (a : GameAction)
  | Server (m : ServerMessage)
deriving DecidableEq, Repr

def decodeDirection (n : Nat) : Option Direction :=
  if n = 0 then some .Up
  else if n = 1 then some .Down
  else if n = 2 then some .Left
  else if n = 3 then some .Right
  else none

def decodeGameAction : List Nat → Option (GameAction × List Nat)
  | 0 :: d :: rest => (decodeDirection d).map fun dd => (.Move dd, rest)
  | 1 :: rest => (decodeRStr rest).map fun pr => (.SpawnPlayer pr.1, pr.2)
  | 2 :: id :: rest => some (.SpawnAs id, rest)
  | 3 :: rest => some (.SaveWorld, rest)
  | _ => none

def decodeServerMessage : List Nat → Option (ServerMessage × List Nat)
  | 0 :: rest => (decodeEntityMap rest).map fun pr => (.EntityMap pr.1, pr.2)
  | 1 :: id :: rest => some (.PlayerID id, rest)
  | _ => none

/-- Decode a whole received payload as one `Message`; trailing tokens
are rejected. -/
def decodeMessage (l : List Nat) : Option Message :=
  match l with
  | 0 :: rest =>
    match decodeGameAction rest with
    | some (a, []) => some (.Client a)
    | _ => none
  | 1 :: rest =>
    match decodeServerMessage rest with
    | some (m, []) => some (.Server m)
    | _ => none
  | _ => none

/-- Hard payload-size ceiling enforced on receive (`src/net.rs` and
`src/network.rs`: `MAX_MESSAGE_SIZE = 10 * 1024 * 1024`). -/
def MAX_MESSAGE_SIZE : Nat := 10 * 1024 * 1024

/-- Failure modes of the receive path. -/
inductive DecodeError where
  | oversized
  | malformed
deriving DecidableEq, Repr

/-- Rust `recv_one_way` (`src/net.rs`, lines 207-211): read the whole
stream, erroring when it exceeds `MAX_MESSAGE_SIZE`, then decode,
converting a decode failure into an error result (`anyerr`). -/
def recv_one_way (bytes : List Nat) : Except DecodeError Message :=
  if MAX_MESSAGE_SIZE < bytes.length then .error .oversized
  else
    match decodeMessage bytes with
    | some m => .ok m
    | none => .error .malformed

/-- Outcome of the legacy receive path; `crash` marks the panic of
`Option::unwrap` on a failed decode. -/
inductive LegacyRecvResult where
  | ok (m : Message)
  | readErr
  | crash
deriving DecidableEq, Repr

/-- Legacy `recv_one_way` (`src/network.rs`, lines 53-59): read errors
(including an oversized stream) are propagated as results, but a decode
failure hits `bitcode::decode(&bytes).unwrap()` and panics.  (The legacy
`Message` enum differs by a `ClientMessage` wrapper and a `Blank`
variant; the unwrap on the decode result does not depend on the variant
list, so the same modelled decoder is used.) -/
def recvOneWayLegacy (bytes : List Nat) : LegacyRecvResult :=
  if MAX_MESSAGE_SIZE < bytes.length then .readErr
  else
    match decodeMessage bytes with
    | some m => .ok m
    | none => .crash

/-- Small concrete world used by witnesses: a single tree with id 1. -/
def sampleState : GameState := ⟨1, [(1, ⟨⟨0, 0⟩, none, .Tree⟩)], []⟩

/-- Concrete server state used by the C3 witness: player 1 at the
origin with an empty visible set, a far tree with id 2 at `(100, 0)`. -/
def fovSampleServer : ServerState :=
  { game := ⟨2, [(1, ⟨⟨0, 0⟩, some [65], .Player⟩), (2, ⟨⟨100, 0⟩, none, .Tree⟩)], []⟩
    endpoints := []
    unique_server_messages := []
    event_queue := []
    player_fovs := [(1, ⟨20, []⟩)] }

/-- Concrete server state for the C3 counterexample: player 1 at
`x = i32::MIN`, tree 2 at `x = i32::MAX` — positions reachable through
saturating moves. -/
def overflowServer : ServerState :=
  { game := ⟨2, [(1, ⟨⟨i32Min, 0⟩, some [65], .Player⟩), (2, ⟨⟨i32Max, 0⟩, none, .Tree⟩)], []⟩
    endpoints := []
    unique_server_messages := []
    event_queue := []
    player_fovs := [(1, ⟨20, []⟩)] }

/-! Helper lemmas about the association-list entity map. -/

theorem findEntity_updateEntity_self (m : EntityMap) (id : EntityID) (f : Entity → Entity) :
    findEntity (updateEntity m id f) id = (findEntity m id).map f := by
  induction m with
  | nil => rfl
  | cons kv rest ih =>
    obtain ⟨k, e⟩ := kv
    by_cases h : k = id <;> simp [updateEntity, findEntity, h, ih]

theorem findEntity_updateEntity_ne (m : EntityMap) (id : EntityID) (f : Entity → Entity)
    (k : EntityID) (h : k ≠ id) :
    findEntity (updateEntity m id f) k = findEntity m k := by
  induction m with
  | nil => rfl
  | cons kv rest ih =>
    obtain ⟨k0, e⟩ := kv
    by_cases h0 : k0 = id
    · subst h0
      simp [updateEntity, findEntity, Ne.symm h, ih]
    · by_cases h1 : k0 = k
      · subst h1
        simp [updateEntity, findEntity, h0, h, ih]
      · simp [updateEntity, findEntity, h0, h1, ih]

theorem updateEntity_of_findEntity_none (m : EntityMap) (id : EntityID) (f : Entity → Entity)
    (h : findEntity m id = none) : updateEntity m id f = m := by
  induction m with
  | nil => rfl
  | cons kv rest ih =>
    obtain ⟨k, e⟩ := kv
    by_cases h0 : k = id
    · simp [findEntity, h0] at h
    · simp [findEntity, h0] at h
      simp [updateEntity, h0, ih h]

theorem findEntity_insertEntity_self (m : EntityMap) (id : EntityID) (e : Entity) :
    findEntity (insertEntity m id e) id = some e := by
  induction m with
  | nil => simp [insertEntity, findEntity]
  | cons kv rest ih =>
    obtain ⟨k, v⟩ := kv
    by_cases h : k = id <;> simp [insertEntity, findEntity, h, ih]

theorem countKey_eq_zero_of_not_mem (m : EntityMap) (id : EntityID)
    (h : id ∉ m.map Prod.fst) : countKey m id = 0 := by
  induction m with
  | nil => rfl
  | cons kv rest ih =>
    rw [List.map_cons, List.mem_cons, not_or] at h
    have h1 : ¬ kv.1 = id := fun hh => h.1 hh.symm
    obtain ⟨k, v⟩ := kv
    simp only [countKey, if_neg h1]
    rw [ih h.2]

theorem countKey_insertEntity (m : EntityMap) (id : EntityID) (e : Entity)
    (h : wfKeys m) : countKey (insertEntity m id e) id = 1 := by
  induction m with
  | nil => simp [insertEntity, countKey]
  | cons kv rest ih =>
    obtain ⟨k, v⟩ := kv
    rw [wfKeys, List.map_cons, List.nodup_cons] at h
    by_cases h0 : k = id
    · subst h0
      have hz : countKey rest k = 0 := countKey_eq_zero_of_not_mem rest k h.1
      simp [insertEntity, countKey, hz]
    · have h2 := ih h.2
      simp [insertEntity, h0, countKey, h2]

/-- Counter value after `n` generator calls: the u32 counter is exactly
`n` modulo `2^32`. -/
theorem genStateAfter_eq (n : Nat) : genStateAfter n = n % 2 ^ 32 := by
  induction n with
  | zero => rfl
  | succ n ih =>
    show (genStateAfter n + 1) % 2 ^ 32 = (n + 1) % 2 ^ 32
    rw [ih]
    omega

/-! Claim theorems for the action applier. -/

/-- C5: for every game state and entity id, applying `SpawnAs(id)` leaves
the state completely unchanged — same id generator, entity map and world
name — and returns exactly the event list `[SpawnAsRequested id]`. -/
theorem apply_spawnAs_pure_event (s : GameState) (actor : EntityID) (eid : EntityID) :
    apply s actor (.SpawnAs eid) = (s, [.SpawnAsRequested eid]) := rfl

/-- C8: applying `Move` with an actor id that has no entity in the map is
a silent no-op on the state, and still returns the event list
`[EntityMoved actor]`. -/
theorem apply_move_missing_actor_noop (s : GameState) (id : EntityID) (d : Direction)
    (h : findEntity s.entities id = none) :
    apply s id (.Move d) = (s, [.EntityMoved id]) := by
  have h2 : move_entity s id d = s := by
    unfold move_entity
    rw [updateEntity_of_findEntity_none s.entities id _ h]
  show (move_entity s id d, [GameEvent.EntityMoved id]) = (s, [GameEvent.EntityMoved id])
  rw [h2]

/-- Witness for C8 at a concrete input: the empty world, actor id 7. -/
theorem apply_move_missing_actor_noop_witness :
    findEntity ((⟨0, [], []⟩ : GameState)).entities 7 = none ∧
    apply (⟨0, [], []⟩ : GameState) 7 (.Move .Up) =
      ((⟨0, [], []⟩ : GameState), [.EntityMoved 7]) :=
  ⟨rfl, apply_move_missing_actor_noop ⟨0, [], []⟩ 7 .Up rfl⟩

/-- C2: `apply` is deterministic — equal states, the same actor id and
the same action yield equal resulting states and equal event lists, and
replaying an identical action sequence on two equal initial worlds yields
identical final worlds. -/
theorem apply_deterministic (s1 s2 : GameState) (id : EntityID) (a : GameAction)
    (l : List (EntityID × GameAction)) (h : s1 = s2) :
    apply s1 id a = apply s2 id a ∧ applyAll s1 l = applyAll s2 l := by
  subst h
  exact ⟨rfl, rfl⟩

/-- Witness for C2 at a concrete input. -/
theorem apply_deterministic_witness :
    apply sampleState 1 (.Move .Right) = apply sampleState 1 (.Move .Right) ∧
    applyAll sampleState [(1, .Move .Right), (0, .SpawnPlayer [65])] =
      applyAll sampleState [(1, .Move .Right), (0, .SpawnPlayer [65])] :=
  apply_deterministic sampleState sampleState 1 (.Move .Right)
    [(1, .Move .Right), (0, .SpawnPlayer [65])] rfl

/-- C10: `move_entity` modifies at most the position field of the entity
with the given id: the id generator and world name are unchanged, every
other key maps to the same entity, and the target id maps to the same
entity with only its position replaced by the saturating shift. -/
theorem move_entity_frame (s : GameState) (id : EntityID) (d : Direction) (k : EntityID)
    (h : k ≠ id) :
    (move_entity s id d).entity_gen = s.entity_gen ∧
    (move_entity s id d).world_name = s.world_name ∧
    findEntity (move_entity s id d).entities k = findEntity s.entities k ∧
    findEntity (move_entity s id d).entities id =
      (findEntity s.entities id).map fun e => { e with position := movePoint e.position d } := by
  dsimp only [move_entity]
  exact ⟨rfl, rfl, findEntity_updateEntity_ne _ _ _ _ h, findEntity_updateEntity_self _ _ _⟩

/-- Witness for C10 at a concrete input: move the tree of `sampleState`
right and observe key 2 (absent) and key 1 (the tree). -/
theorem move_entity_frame_witness :
    (move_entity sampleState 1 .Right).entity_gen = sampleState.entity_gen ∧
    (move_entity sampleState 1 .Right).world_name = sampleState.world_name ∧
    findEntity (move_entity sampleState 1 .Right).entities 2 =
      findEntity sampleState.entities 2 ∧
    findEntity (move_entity sampleState 1 .Right).entities 1 =
      (findEntity sampleState.entities 1).map
        fun e => { e with position := movePoint e.position .Right } :=
  move_entity_frame sampleState 1 .Right 2 (by decide)

/-- C7: `spawn_player` returns an id that maps to exactly one entity in
the new world, of type `Player`, with the given name, at position
`(10, 10)`; and `apply` on `SpawnPlayer` returns exactly
`[PlayerSpawned new_id]`. -/
theorem apply_spawnPlayer_spec (s : GameState) (actor : EntityID) (name : RStr)
    (h : wfKeys s.entities) :
    apply s actor (.SpawnPlayer name) =
      ((spawn_player s name).1, [.PlayerSpawned (spawn_player s name).2]) ∧
    findEntity (spawn_player s name).1.entities (spawn_player s name).2 =
      some ⟨⟨10, 10⟩, some name, .Player⟩ ∧
    countKey (spawn_player s name).1.entities (spawn_player s name).2 = 1 :=
  ⟨rfl, findEntity_insertEntity_self _ _ _, countKey_insertEntity _ _ _ h⟩

/-- Witness for C7 at a concrete input: spawn a player named `[65]`
("A") into `sampleState`. -/
theorem apply_spawnPlayer_spec_witness :
    apply sampleState 0 (.SpawnPlayer [65]) =
      ((spawn_player sampleState [65]).1, [.PlayerSpawned (spawn_player sampleState [65]).2]) ∧
    findEntity (spawn_player sampleState [65]).1.entities (spawn_player sampleState [65]).2 =
      some ⟨⟨10, 10⟩, some [65], .Player⟩ ∧
    countKey (spawn_player sampleState [65]).1.entities (spawn_player sampleState [65]).2 = 1 :=
  apply_spawnPlayer_spec sampleState 0 [65] (by decide)

/-- C6 counterexample: the generator's u32 counter wraps modulo `2^32`,
so the id issued by call `2^32` (namely 0) is not greater than the id
issued by call 1 (namely 1) — strict increase does not hold for an
unbounded number of calls. -/
theorem entityGen_not_unbounded_increasing :
    ¬ ∀ m n : Nat, 1 ≤ m → m < n → genStateAfter m < genStateAfter n := by
  intro h
  have h2 := h 1 (2 ^ 32) (le_refl 1) (by norm_num)
  rw [genStateAfter_eq, genStateAfter_eq, Nat.mod_self] at h2
  norm_num at h2

/-- C6 amended: ids are strictly increasing (hence never reused) across
any two calls within the first `2^32 - 1` allocations from a fresh
generator, i.e. as long as the u32 counter has not wrapped. -/
theorem entityGen_increasing_below_wrap (m n : Nat) (h1 : 1 ≤ m) (h2 : m < n)
    (h3 : n ≤ 2 ^ 32 - 1) :
    genStateAfter m < genStateAfter n := by
  rw [genStateAfter_eq, genStateAfter_eq,
    Nat.mod_eq_of_lt (by omega), Nat.mod_eq_of_lt (by omega)]
  exact h2

/-- Witness for the amended C6 at a concrete input: calls 1 and 2. -/
theorem entityGen_increasing_below_wrap_witness :
    genStateAfter 1 < genStateAfter 2 :=
  entityGen_increasing_below_wrap 1 2 (by decide) (by decide) (by norm_num)

/-- C1 evaluated at the failing input: the legacy
`GameWorld::move_entity` of `src/structs.rs` moves an entity standing at
`y = i32::MAX` one step `Down` with a plain `+ 1`, producing the wrapped
position `y = i32::MIN` (release mode; a debug build panics) instead of
the saturated `y = i32::MAX` the claim requires. -/
theorem gameWorld_move_down_wraps_at_i32Max :
    findEntity (gameWorldMoveEntity [(1, ⟨⟨0, i32Max⟩, none, .Player⟩)] 1 .Down) 1 =
      some ⟨⟨0, i32Min⟩, none, .Player⟩ ∧
    wrap32 (i32Max + 1) ≠ satAdd32 i32Max 1 := by
  constructor
  · decide
  · decide

/-! Lemmas about the i32 model and the snapshot filter. -/

theorem wrap32_eq_self (z : Int) (h1 : i32Min ≤ z) (h2 : z ≤ i32Max) : wrap32 z = z := by
  unfold i32Min at h1
  unfold i32Max at h2
  unfold wrap32
  omega

theorem abs32_i32sub_eq (a b : Int) (h : |a - b| ≤ i32Max) :
    abs32 (i32sub a b) = |a - b| := by
  obtain ⟨hl, hr⟩ := abs_le.mp h
  have hmin : i32Min ≤ a - b := by
    unfold i32Min
    unfold i32Max at hl
    omega
  rw [i32sub, wrap32_eq_self _ hmin hr, abs32, wrap32_eq_self]
  · exact le_trans (by norm_num [i32Min]) (abs_nonneg (a - b))
  · exact h

theorem abs32_i32sub_self (x : Int) : abs32 (i32sub x x) = 0 := by
  have h0 : i32sub x x = 0 := by
    unfold i32sub
    rw [sub_self]
    decide
  rw [h0]
  decide

theorem findEntity_filter (m : EntityMap) (pid : EntityID) (v : Entity)
    (p : EntityID × Entity → Bool)
    (h : findEntity m pid = some v) (hp : p (pid, v) = true) :
    findEntity (m.filter p) pid = some v := by
  induction m with
  | nil => simp [findEntity] at h
  | cons kv rest ih =>
    obtain ⟨k, e⟩ := kv
    by_cases h0 : k = pid
    · subst h0
      rw [findEntity, if_pos rfl] at h
      injection h with h
      subst h
      rw [List.filter_cons, if_pos hp, findEntity, if_pos rfl]
    · rw [findEntity, if_neg h0] at h
      rw [List.filter_cons]
      by_cases h1 : p (k, e) = true
      · rw [if_pos h1, findEntity, if_neg h0]
        exact ih h
      · rw [if_neg h1]
        exact ih h

/-! Claim theorems for the snapshot filter and the receive path. -/

/-- C3 counterexample: in `overflowServer` the tree with id 2 sits at
`x = i32::MAX` while observing player 1 sits at `x = i32::MIN`; the
tree's cell is outside the (empty) strict FOV set and its true distance
`2^32 - 1` is far outside the margin box of radius 25, yet
`entities_for_player` includes it, because the `i32` subtraction in the
margin check wraps `i32::MAX - i32::MIN` to `-1` (a debug build panics
on the same input instead of excluding the entity). -/
theorem entities_for_player_margin_overflow_counterexample :
    fovContains ([] : List (Int × Int)) (i32Max, (0 : Int)) = false ∧
    ¬(|i32Max - i32Min| ≤ ((20 : Nat) : Int) + (FOV_NETWORK_MARGIN : Int)) ∧
    (2, (⟨⟨i32Max, 0⟩, none, .Tree⟩ : Entity)) ∈ entities_for_player overflowServer 1 := by
  refine ⟨rfl, by decide, ?_⟩
  decide

/-- C3 amended: whenever the observing player has both a FOV record and
an entity, `entities_for_player` includes the player's own entity; and
it excludes every entity whose position is outside the strict FOV set
and outside the margin bounding box, provided the coordinate differences
from the player do not exceed `i32::MAX` in absolute value (so the `i32`
distance check does not overflow). -/
theorem entities_for_player_includes_self_excludes_far
    (st : ServerState) (pid : EntityID) (pfov : PlayerFov) (player : Entity)
    (eid : EntityID) (e : Entity)
    (hf : findFov st.player_fovs pid = some pfov)
    (hp : findEntity st.game.entities pid = some player)
    (hnfov : fovContains pfov.current_fov (e.position.x, e.position.y) = false)
    (hdx : |e.position.x - player.position.x| ≤ i32Max)
    (hdy : |e.position.y - player.position.y| ≤ i32Max)
    (hout : ¬(|e.position.x - player.position.x| ≤
          (pfov.fov_radius : Int) + (FOV_NETWORK_MARGIN : Int) ∧
        |e.position.y - player.position.y| ≤
          (pfov.fov_radius : Int) + (FOV_NETWORK_MARGIN : Int))) :
    findEntity (entities_for_player st pid) pid = some player ∧
    (eid, e) ∉ entities_for_player st pid := by
  have hr : (0 : Int) ≤ (pfov.fov_radius : Int) + (FOV_NETWORK_MARGIN : Int) := by
    positivity
  constructor
  · simp only [entities_for_player, hf, hp]
    apply findEntity_filter _ _ _ _ hp
    simp [abs32_i32sub_self, hr]
  · simp only [entities_for_player, hf, hp]
    intro hmem
    rw [List.mem_filter] at hmem
    have hmem2 := hmem.2
    simp only [abs32_i32sub_eq _ _ hdx, abs32_i32sub_eq _ _ hdy, hnfov,
      Bool.false_or, Bool.and_eq_true, decide_eq_true_eq] at hmem2
    exact hout hmem2

/-- Witness for the amended C3 at a concrete input: `fovSampleServer`,
observing player 1, far tree 2 at distance 100 with margin radius 25. -/
theorem entities_for_player_includes_self_excludes_far_witness :
    findEntity (entities_for_player fovSampleServer 1) 1 =
      some ⟨⟨0, 0⟩, some [65], .Player⟩ ∧
    (2, (⟨⟨100, 0⟩, none, .Tree⟩ : Entity)) ∉ entities_for_player fovSampleServer 1 :=
  entities_for_player_includes_self_excludes_far fovSampleServer 1 ⟨20, []⟩
    ⟨⟨0, 0⟩, some [65], .Player⟩ 2 ⟨⟨100, 0⟩, none, .Tree⟩
    rfl rfl rfl (by decide) (by decide) (by decide)

/-- C4 evaluated at the failing input: the one-token payload `[255]` is
malformed (no decoder accepts tag 255); the live `recv_one_way` of
`src/net.rs` returns an error result, while the legacy `recv_one_way` of
`src/network.rs` panics on the `unwrap` of the failed decode. -/
theorem recv_one_way_malformed_eval :
    decodeMessage [255] = none ∧
    recv_one_way [255] = .error .malformed ∧
    recvOneWayLegacy [255] = .crash :=
  ⟨rfl, rfl, rfl⟩

/-! Round-trip lemmas for the serialization model. -/

theorem unzigzag_zigzag (z : Int) : unzigzag (zigzag z) = z := by
  unfold zigzag unzigzag
  split <;> split <;> omega

theorem decodeRStr_encode (s : RStr) (r : List Nat) :
    decodeRStr (encodeRStr s ++ r) = some (s, r) := by
  show decodeRStr (s.length :: (s ++ r)) = some (s, r)
  rw [decodeRStr, if_pos (by simp)]
  rw [List.take_left, List.drop_left]

theorem decodePoint_encode (p : Point) (r : List Nat) :
    decodePoint (encodePoint p ++ r) = some (p, r) := by
  simp [encodePoint, decodePoint, unzigzag_zigzag]

theorem decodeEntityType_encode (t : EntityType) :
    decodeEntityType (encodeEntityType t) = some t := by
  cases t <;> rfl

theorem decodeName_encode (nm : Option RStr) (r : List Nat) :
    decodeName (encodeName nm ++ r) = some (nm, r) := by
  cases nm with
  | none => rfl
  | some s =>
    show decodeName (1 :: (encodeRStr s ++ r)) = some (some s, r)
    rw [decodeName, decodeRStr_encode]
    rfl

theorem decodeEntity_encode (e : Entity) (r : List Nat) :
    decodeEntity (encodeEntity e ++ r) = some (e, r) := by
  obtain ⟨p, nm, ty⟩ := e
  simp only [encodeEntity, decodeEntity, List.append_assoc, decodePoint_encode,
    decodeName_encode, List.singleton_append, decodeEntityType_encode]

theorem decodeEntries_encode (m : EntityMap) (r : List Nat) :
    decodeEntries m.length
        ((m.map fun kv => kv.1 :: encodeEntity kv.2).flatten ++ r) = some (m, r) := by
  induction m with
  | nil => rfl
  | cons kv rest ih =>
    obtain ⟨k, e⟩ := kv
    simp only [List.map_cons, List.flatten_cons, List.length_cons, List.cons_append,
      List.append_assoc, decodeEntries, decodeEntity_encode, ih]

/-- C9: decoding the serialized form of any game state yields exactly
the state back — equal id-generator counter, equal entity map and equal
world name (the round trip of the persistence used by `save_to_file`
and `load_from_file`). -/
theorem decodeRStr_encode_nil (s : RStr) : decodeRStr (encodeRStr s) = some (s, []) := by
  have h := decodeRStr_encode s []
  rwa [List.append_nil] at h

theorem decode_encode_gameState_roundtrip (s : GameState) :
    decodeGameState (encodeGameState s) = some s := by
  simp only [encodeGameState, encodeEntityMap, decodeGameState, decodeEntityMap,
    List.cons_append, decodeEntries_encode, decodeRStr_encode_nil]

end Gamik
